import Mathlib

/-
Verification of the project-planner CRUD engine in
src/remote-mcp/src/index.ts (class MyMCP).

Shallow embedding notes.

* The Cloudflare KV namespace is modelled as an association list from
  keys to values; `kv.get` returns the first binding, `kv.put`
  overwrites, `kv.delete` removes.  The source builds string keys
  "project:list", `project:${id}`, `project:${id}:todos` and
  `todo:${id}` where every id is a `crypto.randomUUID()` (hex digits
  and dashes, never containing ':' and never equal to "list"), so the
  four key-forming templates are injective and mutually disjoint; the
  inductive type `Key` below is therefore a faithful rendering of the
  key scheme.
* Values in the store are JSON strings.  `JSON.stringify`/`JSON.parse`
  round-trip the three shapes the program ever writes (id arrays,
  Project records, Todo records), so values are modelled by the sum
  type `Value`.  The handlers apply `JSON.parse` without shape
  validation; the projections `Value.asIds` / `Value.asProj` /
  `Value.asTodo` are their total counterparts, returning a junk
  default on a shape that the program never stores at that key.
* `crypto.randomUUID()` and `new Date().toISOString()` results are
  passed in as explicit parameters (`projectId` / `todoId` / `now`);
  the source evaluates `toISOString()` separately for `createdAt` and
  `updatedAt` inside one record literal, modelled by a single `now`.
* Every handler returns an `OpResult`: the JS return value or thrown
  error message, the store after the call, and the trace of KV calls
  (get/put/delete) it performed, in program order.
-/

namespace ProjectPlanner

/-- interface Project, src/remote-mcp/src/index.ts lines 5-11. -/
structure Project where
  id : String
  name : String
  description : String
  createdAt : String
  updatedAt : String
  deriving DecidableEq, Repr, Inhabited

/-- Todo.status enum: "pending" | "in-progress" | "completed" (line 18). -/
inductive Status where
  | pending
  | inProgress
  | completed
  deriving DecidableEq, Repr, Inhabited

/-- Todo.priority enum: "low" | "medium" | "high" (line 19). -/
inductive Priority where
  | low
  | medium
  | high
  deriving DecidableEq, Repr, Inhabited

/-- interface Todo, src/remote-mcp/src/index.ts lines 13-22. -/
structure Todo where
  id : String
  projectId : String
  title : String
  description : String
  status : Status
  priority : Priority
  createdAt : String
  updatedAt : String
  deriving DecidableEq, Repr, Inhabited

/-- The four key templates used by the source (see header comment). -/
inductive Key where
  | projectList
  | project (id : String)
  | projectTodos (id : String)
  | todo (id : String)
  deriving DecidableEq, Repr

/-- The three value shapes the program serializes into the store. -/
inductive Value where
  | ids (l : List String)
  | proj (p : Project)
  | todoVal (t : Todo)
  deriving DecidableEq, Repr

/-- JSON.parse of a stored value read at an id-list key (`JSON.parse(listData)`). -/
def Value.asIds : Value → List String
  | .ids l => l
  | _ => []

/-- JSON.parse of a stored value read at a project key. -/
def Value.asProj : Value → Project
  | .proj p => p
  | _ => default

/-- JSON.parse of a stored value read at a todo key. -/
def Value.asTodo : Value → Todo
  | .todoVal t => t
  | _ => default

/-- The KV namespace: bindings in insertion order, first binding wins. -/
abbrev Store := List (Key × Value)

/-- `await this.kv.get(key)`. -/
def kvGet (s : Store) (k : Key) : Option Value :=
  (s.find? (fun e => e.1 == k)).map (fun e => e.2)

/-- `await this.kv.put(key, value)`: overwrite any existing binding. -/
def kvPut (s : Store) (k : Key) (v : Value) : Store :=
  (k, v) :: s.filter (fun e => e.1 != k)

/-- `await this.kv.delete(key)`. -/
def kvDelete (s : Store) (k : Key) : Store :=
  s.filter (fun e => e.1 != k)

/-- One KV call, as recorded in a handler's trace. -/
inductive KVEvent where
  | getE (k : Key)
  | putE (k : Key) (v : Value)
  | delE (k : Key)
  deriving DecidableEq, Repr

/-- Whether an event mutates the store (a put or a delete). -/
def KVEvent.isWrite : KVEvent → Bool
  | .getE _ => false
  | .putE _ _ => true
  | .delE _ => true

/-- Whether an event is a delete. -/
def KVEvent.isDel : KVEvent → Bool
  | .delE _ => true
  | _ => false

/-- Outcome of one tool handler: JS return value or thrown message,
the store afterwards, and the KV calls made, in order. -/
structure OpResult (α : Type) where
  result : Except String α
  store : Store
  events : List KVEvent
  deriving Repr

/-- getProjectList, lines 34-37: read "project:list", parse, default []. -/
def getProjectList (s : Store) : List String :=
  match kvGet s Key.projectList with
  | some v => v.asIds
  | none => []

/-- getTodoList, lines 39-42: read `project:${projectId}:todos`, parse, default []. -/
def getTodoList (s : Store) (projectId : String) : List String :=
  match kvGet s (Key.projectTodos projectId) with
  | some v => v.asIds
  | none => []

/-- The `for (const todoId of todoIds)` loop of getTodosByProject,
lines 48-53: push the parsed record of each present todo id. -/
def todosLoop (s : Store) (todos : List Todo) : List String → List Todo
  | [] => todos
  | todoId :: rest =>
    match kvGet s (Key.todo todoId) with
    | some v => todosLoop s (todos ++ [v.asTodo]) rest
    | none => todosLoop s todos rest

/-- getTodosByProject, lines 44-56. -/
def getTodosByProject (s : Store) (projectId : String) : List Todo :=
  todosLoop s [] (getTodoList s projectId)

/-- The KV calls getTodosByProject makes: one list read plus one read
per listed todo id (performed whether or not the record is present). -/
def getTodosByProjectEvents (s : Store) (projectId : String) : List KVEvent :=
  KVEvent.getE (Key.projectTodos projectId) ::
    (getTodoList s projectId).map (fun todoId => KVEvent.getE (Key.todo todoId))

/-- The newProject record literal, lines 69-75. -/
def newProjectRecord (projectId now name description : String) : Project :=
  { id := projectId, name := name, description := description,
    createdAt := now, updatedAt := now }

/-- create_project handler, lines 59-89. -/
def create_project (s : Store) (projectId now name description : String) :
    OpResult Project :=
  let newProject := newProjectRecord projectId now name description
  let s1 := kvPut s (Key.project projectId) (Value.proj newProject)
  let projectList := getProjectList s1
  let s2 := kvPut s1 Key.projectList (Value.ids (projectList ++ [projectId]))
  { result := Except.ok newProject,
    store := s2,
    events := [KVEvent.putE (Key.project projectId) (Value.proj newProject),
               KVEvent.getE Key.projectList,
               KVEvent.putE Key.projectList (Value.ids (projectList ++ [projectId]))] }

/-- The `for (const projectId of projectList)` loop of list_projects,
lines 99-104: push the parsed record of each present project id. -/
def projectsLoop (s : Store) (projects : List Project) : List String → List Project
  | [] => projects
  | projectId :: rest =>
    match kvGet s (Key.project projectId) with
    | some v => projectsLoop s (projects ++ [v.asProj]) rest
    | none => projectsLoop s projects rest

/-- list_projects handler, lines 91-110. -/
def list_projects (s : Store) : OpResult (List Project) :=
  let projectList := getProjectList s
  let projects := projectsLoop s [] projectList
  { result := Except.ok projects,
    store := s,
    events := KVEvent.getE Key.projectList ::
      projectList.map (fun projectId => KVEvent.getE (Key.project projectId)) }

/-- get_project handler, lines 112-136. -/
def get_project (s : Store) (projectId : String) :
    OpResult (Project × List Todo) :=
  match kvGet s (Key.project projectId) with
  | none =>
    { result := Except.error s!"Project with ID {projectId} does not exist.",
      store := s,
      events := [KVEvent.getE (Key.project projectId)] }
  | some v =>
    { result := Except.ok (v.asProj, getTodosByProject s projectId),
      store := s,
      events := KVEvent.getE (Key.project projectId) ::
        getTodosByProjectEvents s projectId }

/-- delete_project handler, lines 138-171: existence check, load the
todo index list, delete each listed todo record, delete the project
record (line 155), delete the todo index key (line 156), then rewrite
the filtered project index list. -/
def delete_project (s : Store) (projectId : String) : OpResult String :=
  match kvGet s (Key.project projectId) with
  | none =>
    { result := Except.error s!"Project with ID {projectId} does not exist.",
      store := s,
      events := [KVEvent.getE (Key.project projectId)] }
  | some _ =>
    let todoIds := getTodoList s projectId
    let s1 := todoIds.foldl (fun acc todoId => kvDelete acc (Key.todo todoId)) s
    let s2 := kvDelete s1 (Key.project projectId)
    let s3 := kvDelete s2 (Key.projectTodos projectId)
    let projectList := getProjectList s3
    let s4 := kvPut s3 Key.projectList
      (Value.ids (projectList.filter (fun id => id != projectId)))
    { result := Except.ok
        s!"Project with ID {projectId} and its associated todos have been deleted.",
      store := s4,
      events := KVEvent.getE (Key.project projectId) ::
        KVEvent.getE (Key.projectTodos projectId) ::
        (todoIds.map (fun todoId => KVEvent.delE (Key.todo todoId)) ++
         [KVEvent.delE (Key.project projectId),
          KVEvent.delE (Key.projectTodos projectId),
          KVEvent.getE Key.projectList,
          KVEvent.putE Key.projectList
            (Value.ids (projectList.filter (fun id => id != projectId)))]) }

/-- The newTodo record literal, lines 198-207.  `description || ""`
maps both an omitted and an empty description to "" (Option.getD ""
agrees: some "" also yields ""); `priority || "medium"` defaults an
omitted priority (the enum strings are all truthy). -/
def newTodoRecord (projectId todoId now title : String)
    (description : Option String) (priority : Option Priority) : Todo :=
  { id := todoId, projectId := projectId, title := title,
    description := description.getD "",
    status := Status.pending,
    priority := priority.getD Priority.medium,
    createdAt := now, updatedAt := now }

/-- create_todo handler, lines 173-222. -/
def create_todo (s : Store) (projectId todoId now title : String)
    (description : Option String) (priority : Option Priority) : OpResult Todo :=
  match kvGet s (Key.project projectId) with
  | none =>
    { result := Except.error s!"Project with ID {projectId} does not exist.",
      store := s,
      events := [KVEvent.getE (Key.project projectId)] }
  | some _ =>
    let newTodo := newTodoRecord projectId todoId now title description priority
    let s1 := kvPut s (Key.todo todoId) (Value.todoVal newTodo)
    let todoList := getTodoList s1 projectId
    let s2 := kvPut s1 (Key.projectTodos projectId)
      (Value.ids (todoList ++ [todoId]))
    { result := Except.ok newTodo,
      store := s2,
      events := [KVEvent.getE (Key.project projectId),
                 KVEvent.putE (Key.todo todoId) (Value.todoVal newTodo),
                 KVEvent.getE (Key.projectTodos projectId),
                 KVEvent.putE (Key.projectTodos projectId)
                   (Value.ids (todoList ++ [todoId]))] }

/-- The four `if (field !== undefined)` assignments plus the
unconditional `todo.updatedAt = ...` of update_todo, lines 251-255. -/
def applyUpdates (todo : Todo) (title description : Option String)
    (status : Option Status) (priority : Option Priority) (now : String) : Todo :=
  let t1 := match title with
    | some x => { todo with title := x }
    | none => todo
  let t2 := match description with
    | some x => { t1 with description := x }
    | none => t1
  let t3 := match status with
    | some x => { t2 with status := x }
    | none => t2
  let t4 := match priority with
    | some x => { t3 with priority := x }
    | none => t3
  { t4 with updatedAt := now }

/-- update_todo handler, lines 224-263. -/
def update_todo (s : Store) (todoId now : String)
    (title description : Option String) (status : Option Status)
    (priority : Option Priority) : OpResult Todo :=
  match kvGet s (Key.todo todoId) with
  | none =>
    { result := Except.error s!"Todo with ID {todoId} does not exist.",
      store := s,
      events := [KVEvent.getE (Key.todo todoId)] }
  | some v =>
    let todo := applyUpdates v.asTodo title description status priority now
    let s1 := kvPut s (Key.todo todoId) (Value.todoVal todo)
    { result := Except.ok todo,
      store := s1,
      events := [KVEvent.getE (Key.todo todoId),
                 KVEvent.putE (Key.todo todoId) (Value.todoVal todo)] }

/-- get_todo handler, lines 265-283. -/
def get_todo (s : Store) (todoId : String) : OpResult Todo :=
  match kvGet s (Key.todo todoId) with
  | none =>
    { result := Except.error s!"Todo with ID {todoId} does not exist.",
      store := s,
      events := [KVEvent.getE (Key.todo todoId)] }
  | some v =>
    { result := Except.ok v.asTodo,
      store := s,
      events := [KVEvent.getE (Key.todo todoId)] }

/-- delete_todo handler, lines 285-313: the todo index list is looked
up under the record's own stored projectId. -/
def delete_todo (s : Store) (todoId : String) : OpResult String :=
  match kvGet s (Key.todo todoId) with
  | none =>
    { result := Except.error s!"Todo with ID {todoId} does not exist.",
      store := s,
      events := [KVEvent.getE (Key.todo todoId)] }
  | some v =>
    let todo := v.asTodo
    let s1 := kvDelete s (Key.todo todoId)
    let todoList := getTodoList s1 todo.projectId
    let s2 := kvPut s1 (Key.projectTodos todo.projectId)
      (Value.ids (todoList.filter (fun id => id != todoId)))
    { result := Except.ok s!"Todo with ID {todoId} has been deleted.",
      store := s2,
      events := [KVEvent.getE (Key.todo todoId),
                 KVEvent.delE (Key.todo todoId),
                 KVEvent.getE (Key.projectTodos todo.projectId),
                 KVEvent.putE (Key.projectTodos todo.projectId)
                   (Value.ids (todoList.filter (fun id => id != todoId)))] }

/-- list_todos handler, lines 315-340: existence check, load all todos
of the project, optional equality filter on status. -/
def list_todos (s : Store) (projectId : String) (status : Option Status) :
    OpResult (List Todo) :=
  match kvGet s (Key.project projectId) with
  | none =>
    { result := Except.error s!"Project with ID {projectId} does not exist.",
      store := s,
      events := [KVEvent.getE (Key.project projectId)] }
  | some _ =>
    let todos := getTodosByProject s projectId
    let todos2 := match status with
      | some st => todos.filter (fun todo => todo.status == st)
      | none => todos
    { result := Except.ok todos2,
      store := s,
      events := KVEvent.getE (Key.project projectId) ::
        getTodosByProjectEvents s projectId }

/-- The value shapes the program ever writes at each key form: id
lists at index keys, a Project record (with matching id) at a project
key, a Todo record (with matching id) at a todo key. -/
def ValueTyped (k : Key) (v : Value) : Prop :=
  match k, v with
  | .projectList, .ids _ => True
  | .project pid, .proj p => p.id = pid
  | .projectTodos _, .ids _ => True
  | .todo tid, .todoVal t => t.id = tid
  | _, _ => False

instance (k : Key) (v : Value) : Decidable (ValueTyped k v) :=
  match k, v with
  | .projectList, .ids _ => .isTrue trivial
  | .projectList, .proj _ => .isFalse fun h => h
  | .projectList, .todoVal _ => .isFalse fun h => h
  | .project _, .ids _ => .isFalse fun h => h
  | .project pid, .proj p => inferInstanceAs (Decidable (p.id = pid))
  | .project _, .todoVal _ => .isFalse fun h => h
  | .projectTodos _, .ids _ => .isTrue trivial
  | .projectTodos _, .proj _ => .isFalse fun h => h
  | .projectTodos _, .todoVal _ => .isFalse fun h => h
  | .todo _, .ids _ => .isFalse fun h => h
  | .todo _, .proj _ => .isFalse fun h => h
  | .todo tid, .todoVal t => inferInstanceAs (Decidable (t.id = tid))

/-- Every binding of the store is well-shaped for its key. -/
def StoreTyped (s : Store) : Prop :=
  ∀ e ∈ s, ValueTyped e.1 e.2

instance (s : Store) : Decidable (StoreTyped s) :=
  inferInstanceAs (Decidable (∀ e ∈ s, ValueTyped e.1 e.2))

/-- The C1 index/record consistency invariant: every id in the project
index list resolves to a stored project record; every id in a
project's todo index list resolves to a stored todo record whose
projectId is that project; conversely every stored project/todo
record's id appears in its owning index list exactly once. -/
def Invariant (s : Store) : Prop :=
  (∀ pid ∈ getProjectList s,
    ∃ p : Project, kvGet s (Key.project pid) = some (Value.proj p)) ∧
  (∀ pid : String, ∀ tid ∈ getTodoList s pid,
    ∃ t : Todo, kvGet s (Key.todo tid) = some (Value.todoVal t) ∧ t.projectId = pid) ∧
  (∀ pid : String, ∀ p : Project, kvGet s (Key.project pid) = some (Value.proj p) →
    (getProjectList s).count p.id = 1) ∧
  (∀ tid : String, ∀ t : Todo, kvGet s (Key.todo tid) = some (Value.todoVal t) →
    (getTodoList s t.projectId).count t.id = 1)

/-- Strengthened induction invariant: the four clauses of `Invariant`
split into membership/uniqueness parts, plus store well-shapedness. -/
structure AuxInv (s : Store) : Prop where
  typed : StoreTyped s
  proj_mem_rec : ∀ pid ∈ getProjectList s,
    ∃ p : Project, kvGet s (Key.project pid) = some (Value.proj p)
  todo_mem_rec : ∀ pid : String, ∀ tid ∈ getTodoList s pid,
    ∃ t : Todo, kvGet s (Key.todo tid) = some (Value.todoVal t) ∧ t.projectId = pid
  proj_rec_mem : ∀ pid p, kvGet s (Key.project pid) = some (Value.proj p) →
    pid ∈ getProjectList s
  todo_rec_mem : ∀ tid t, kvGet s (Key.todo tid) = some (Value.todoVal t) →
    tid ∈ getTodoList s t.projectId
  proj_nodup : (getProjectList s).Nodup
  todo_nodup : ∀ pid : String, (getTodoList s pid).Nodup

/-- Stores reachable from the empty store by finite sequences of
handler runs.  The generated uuid of each create is a fresh key
(`crypto.randomUUID` collisions are assumed away).  Runs that throw
leave the store unchanged, so admitting them keeps the relation a
superset of "successfully-completed sequences". -/
inductive Reachable : Store → Prop where
  | empty : Reachable []
  | step_create_project {s : Store} {pid now name description : String} :
      Reachable s → kvGet s (Key.project pid) = none →
      Reachable (create_project s pid now name description).store
  | step_list_projects {s : Store} :
      Reachable s → Reachable (list_projects s).store
  | step_get_project {s : Store} {pid : String} :
      Reachable s → Reachable (get_project s pid).store
  | step_delete_project {s : Store} {pid : String} :
      Reachable s → Reachable (delete_project s pid).store
  | step_create_todo {s : Store} {pid tid now title : String}
      {description : Option String} {priority : Option Priority} :
      Reachable s → kvGet s (Key.todo tid) = none →
      Reachable (create_todo s pid tid now title description priority).store
  | step_update_todo {s : Store} {tid now : String}
      {title description : Option String} {status : Option Status}
      {priority : Option Priority} :
      Reachable s →
      Reachable (update_todo s tid now title description status priority).store
  | step_get_todo {s : Store} {tid : String} :
      Reachable s → Reachable (get_todo s tid).store
  | step_delete_todo {s : Store} {tid : String} :
      Reachable s → Reachable (delete_todo s tid).store
  | step_list_todos {s : Store} {pid : String} {status : Option Status} :
      Reachable s → Reachable (list_todos s pid status).store

/-- Modelled from the spec: the order of the delete sub-steps that
spec section 4.3 prescribes for deleteProject — "deletes every
referenced todo record, deletes the todo index key itself, deletes the
project record". -/
def specDeleteOrder (s : Store) (projectId : String) : List KVEvent :=
  (getTodoList s projectId).map (fun todoId => KVEvent.delE (Key.todo todoId)) ++
    [KVEvent.delE (Key.projectTodos projectId),
     KVEvent.delE (Key.project projectId)]

/-- A one-project store used as concrete input by the counterexamples
and witnesses below. -/
def demoProject : Project :=
  { id := "p1", name := "Launch", description := "Q1 launch",
    createdAt := "2024-01-01T00:00:00Z", updatedAt := "2024-01-01T00:00:00Z" }

def demoStore1 : Store :=
  (create_project [] "p1" "2024-01-01T00:00:00Z" "Launch" "Q1 launch").store

def demoStore2 : Store :=
  (create_todo demoStore1 "p1" "t1" "2024-01-02T00:00:00Z" "Write copy"
    none none).store

theorem find?_filter_ne (s : Store) (k k' : Key) (h : k' ≠ k) :
    (s.filter (fun e => e.1 != k)).find? (fun e => e.1 == k') =
      s.find? (fun e => e.1 == k') := by
  induction s with
  | nil => rfl
  | cons a s ih =>
    by_cases h1 : a.1 = k
    · have hb : (a.1 != k) = false := by simp [h1]
      have h2 : (a.1 == k') = false := by
        rw [h1]
        exact beq_eq_false_iff_ne.2 fun hk => h hk.symm
      simp only [List.filter_cons, hb, if_neg Bool.false_ne_true, List.find?_cons, h2, ih]
    · have hb : (a.1 != k) = true := by simp [h1]
      by_cases h2 : a.1 = k'
      · have hq : (a.1 == k') = true := by simp [h2]
        simp only [List.filter_cons, hb, if_pos rfl, if_true, List.find?_cons, hq]
      · have hq : (a.1 == k') = false := by simp [h2]
        simp only [List.filter_cons, hb, if_pos rfl, if_true, List.find?_cons, hq, ih]

theorem kvGet_put (s : Store) (k : Key) (v : Value) (k' : Key) :
    kvGet (kvPut s k v) k' = if k' = k then some v else kvGet s k' := by
  by_cases h : k' = k
  · subst h
    simp [kvGet, kvPut, List.find?_cons]
  · have hk : (k == k') = false := by
      simp
      exact fun hk => h hk.symm
    simp [kvGet, kvPut, List.find?_cons, hk, h, find?_filter_ne s k k' h]

theorem kvGet_delete (s : Store) (k : Key) (k' : Key) :
    kvGet (kvDelete s k) k' = if k' = k then none else kvGet s k' := by
  by_cases h : k' = k
  · subst h
    have : (s.filter (fun e => e.1 != k')).find? (fun e => e.1 == k') = none := by
      apply List.find?_eq_none.2
      intro e he
      have := (List.mem_filter.1 he).2
      simp at this ⊢
      exact this
    simp [kvGet, kvDelete, this]
  · simp [kvGet, kvDelete, h, find?_filter_ne s k k' h]

theorem kvGet_nil (k : Key) : kvGet [] k = none := rfl

theorem getProjectList_put_ne (s : Store) (k : Key) (v : Value)
    (h : k ≠ Key.projectList) :
    getProjectList (kvPut s k v) = getProjectList s := by
  unfold getProjectList
  rw [kvGet_put, if_neg (Ne.symm h)]

theorem getProjectList_del_ne (s : Store) (k : Key) (h : k ≠ Key.projectList) :
    getProjectList (kvDelete s k) = getProjectList s := by
  unfold getProjectList
  rw [kvGet_delete, if_neg (Ne.symm h)]

theorem getProjectList_put_list (s : Store) (l : List String) :
    getProjectList (kvPut s Key.projectList (Value.ids l)) = l := by
  unfold getProjectList
  rw [kvGet_put, if_pos rfl]
  rfl

theorem getTodoList_put_ne (s : Store) (k : Key) (v : Value) (pid : String)
    (h : k ≠ Key.projectTodos pid) :
    getTodoList (kvPut s k v) pid = getTodoList s pid := by
  unfold getTodoList
  rw [kvGet_put, if_neg (Ne.symm h)]

theorem getTodoList_del_ne (s : Store) (k : Key) (pid : String)
    (h : k ≠ Key.projectTodos pid) :
    getTodoList (kvDelete s k) pid = getTodoList s pid := by
  unfold getTodoList
  rw [kvGet_delete, if_neg (Ne.symm h)]

theorem getTodoList_put_list (s : Store) (pid : String) (l : List String) :
    getTodoList (kvPut s (Key.projectTodos pid) (Value.ids l)) pid = l := by
  unfold getTodoList
  rw [kvGet_put, if_pos rfl]
  rfl

theorem kvGet_foldl_delete (tids : List String) (s : Store) (k : Key) :
    kvGet (tids.foldl (fun acc todoId => kvDelete acc (Key.todo todoId)) s) k =
      if k ∈ tids.map Key.todo then none else kvGet s k := by
  induction tids generalizing s with
  | nil => simp
  | cons a tids ih =>
    simp only [List.foldl_cons, List.map_cons, List.mem_cons]
    rw [ih]
    by_cases hk : k = Key.todo a
    · subst hk
      by_cases h2 : Key.todo a ∈ tids.map Key.todo <;>
        simp [h2, kvGet_delete]
    · by_cases h2 : k ∈ tids.map Key.todo
      · simp [h2, hk]
      · simp [h2, hk, kvGet_delete]

theorem getProjectList_foldl_delete (tids : List String) (s : Store) :
    getProjectList
      (tids.foldl (fun acc todoId => kvDelete acc (Key.todo todoId)) s) =
      getProjectList s := by
  unfold getProjectList
  rw [kvGet_foldl_delete]
  have : Key.projectList ∉ tids.map Key.todo := by
    simp
  rw [if_neg this]

theorem getTodoList_foldl_delete (tids : List String) (s : Store) (pid : String) :
    getTodoList
      (tids.foldl (fun acc todoId => kvDelete acc (Key.todo todoId)) s) pid =
      getTodoList s pid := by
  unfold getTodoList
  rw [kvGet_foldl_delete]
  have : Key.projectTodos pid ∉ tids.map Key.todo := by
    simp
  rw [if_neg this]

theorem storeTyped_get {s : Store} (h : StoreTyped s) {k : Key} {v : Value}
    (hk : kvGet s k = some v) : ValueTyped k v := by
  unfold kvGet at hk
  cases hf : s.find? (fun e => e.1 == k) with
  | none => rw [hf] at hk; simp at hk
  | some e =>
    rw [hf] at hk
    simp at hk
    have hm := List.mem_of_find?_eq_some hf
    have hek : e.1 = k := by
      have := List.find?_some hf
      simpa using this
    have := h e hm
    rw [hek, hk] at this
    exact this

theorem storeTyped_put {s : Store} {k : Key} {v : Value}
    (h : StoreTyped s) (hv : ValueTyped k v) : StoreTyped (kvPut s k v) := by
  intro e he
  rcases List.mem_cons.1 he with rfl | he2
  · exact hv
  · exact h e (List.mem_of_mem_filter he2)

theorem storeTyped_delete {s : Store} {k : Key} (h : StoreTyped s) :
    StoreTyped (kvDelete s k) :=
  fun e he => h e (List.mem_of_mem_filter he)

theorem storeTyped_foldl_delete (tids : List String) {s : Store}
    (h : StoreTyped s) :
    StoreTyped (tids.foldl (fun acc todoId => kvDelete acc (Key.todo todoId)) s) := by
  induction tids generalizing s with
  | nil => exact h
  | cons a tids ih => exact ih (storeTyped_delete h)

theorem todosLoop_eq (s : Store) (l : List String) (acc : List Todo) :
    todosLoop s acc l = acc ++ l.filterMap
      (fun todoId => (kvGet s (Key.todo todoId)).map Value.asTodo) := by
  induction l generalizing acc with
  | nil => simp [todosLoop]
  | cons a l ih =>
    cases hf : kvGet s (Key.todo a) <;>
      simp [todosLoop, hf, ih, List.filterMap_cons]

theorem getTodosByProject_eq (s : Store) (pid : String) :
    getTodosByProject s pid = (getTodoList s pid).filterMap
      (fun todoId => (kvGet s (Key.todo todoId)).map Value.asTodo) := by
  unfold getTodosByProject
  rw [todosLoop_eq]
  simp

theorem projectsLoop_eq (s : Store) (l : List String) (acc : List Project) :
    projectsLoop s acc l = acc ++ l.filterMap
      (fun projectId => (kvGet s (Key.project projectId)).map Value.asProj) := by
  induction l generalizing acc with
  | nil => simp [projectsLoop]
  | cons a l ih =>
    cases hf : kvGet s (Key.project a) <;>
      simp [projectsLoop, hf, ih, List.filterMap_cons]

theorem list_projects_result (s : Store) :
    (list_projects s).result = Except.ok ((getProjectList s).filterMap
      (fun projectId => (kvGet s (Key.project projectId)).map Value.asProj)) := by
  simp only [list_projects]
  rw [projectsLoop_eq]
  simp

theorem list_projects_store (s : Store) : (list_projects s).store = s := rfl

theorem list_projects_events (s : Store) :
    (list_projects s).events = KVEvent.getE Key.projectList ::
      (getProjectList s).map (fun projectId => KVEvent.getE (Key.project projectId)) := rfl

theorem get_project_store (s : Store) (pid : String) :
    (get_project s pid).store = s := by
  unfold get_project
  cases kvGet s (Key.project pid) <;> rfl

theorem get_todo_store (s : Store) (tid : String) :
    (get_todo s tid).store = s := by
  unfold get_todo
  cases kvGet s (Key.todo tid) <;> rfl

theorem get_todo_events (s : Store) (tid : String) :
    (get_todo s tid).events = [KVEvent.getE (Key.todo tid)] := by
  unfold get_todo
  cases kvGet s (Key.todo tid) <;> rfl

theorem list_todos_store (s : Store) (pid : String) (status : Option Status) :
    (list_todos s pid status).store = s := by
  unfold list_todos
  cases kvGet s (Key.project pid) <;> rfl

theorem get_todo_error {s : Store} {tid : String}
    (h : kvGet s (Key.todo tid) = none) :
    (get_todo s tid).result = Except.error s!"Todo with ID {tid} does not exist." := by
  simp [get_todo, h]

theorem get_project_error {s : Store} {pid : String}
    (h : kvGet s (Key.project pid) = none) :
    (get_project s pid).result =
      Except.error s!"Project with ID {pid} does not exist." := by
  simp [get_project, h]

theorem create_project_run (s : Store) (pid now name description : String) :
    create_project s pid now name description =
      { result := Except.ok (newProjectRecord pid now name description),
        store := kvPut
          (kvPut s (Key.project pid)
            (Value.proj (newProjectRecord pid now name description)))
          Key.projectList (Value.ids (getProjectList s ++ [pid])),
        events := [KVEvent.putE (Key.project pid)
                     (Value.proj (newProjectRecord pid now name description)),
                   KVEvent.getE Key.projectList,
                   KVEvent.putE Key.projectList
                     (Value.ids (getProjectList s ++ [pid]))] } := by
  simp only [create_project]
  rw [getProjectList_put_ne _ _ _ (fun h => Key.noConfusion h)]

theorem create_project_kvGet (s : Store) (pid now name description : String)
    (k : Key) :
    kvGet (create_project s pid now name description).store k =
      if k = Key.projectList then some (Value.ids (getProjectList s ++ [pid]))
      else if k = Key.project pid
        then some (Value.proj (newProjectRecord pid now name description))
      else kvGet s k := by
  rw [create_project_run]
  simp only []
  rw [kvGet_put, kvGet_put]

theorem create_project_getProjectList (s : Store)
    (pid now name description : String) :
    getProjectList (create_project s pid now name description).store =
      getProjectList s ++ [pid] := by
  rw [create_project_run]
  simp only []
  rw [getProjectList_put_list]

theorem create_project_getTodoList (s : Store)
    (pid now name description : String) (x : String) :
    getTodoList (create_project s pid now name description).store x =
      getTodoList s x := by
  rw [create_project_run]
  simp only []
  rw [getTodoList_put_ne _ _ _ _ (fun h => Key.noConfusion h),
    getTodoList_put_ne _ _ _ _ (fun h => Key.noConfusion h)]

theorem create_todo_run_absent {s : Store} {pid : String}
    (tid now title : String) (description : Option String)
    (priority : Option Priority) (hp : kvGet s (Key.project pid) = none) :
    create_todo s pid tid now title description priority =
      { result := Except.error s!"Project with ID {pid} does not exist.",
        store := s,
        events := [KVEvent.getE (Key.project pid)] } := by
  simp [create_todo, hp]

theorem create_todo_run {s : Store} {pid : String} {v : Value}
    (tid now title : String) (description : Option String)
    (priority : Option Priority) (hp : kvGet s (Key.project pid) = some v) :
    create_todo s pid tid now title description priority =
      { result := Except.ok (newTodoRecord pid tid now title description priority),
        store := kvPut
          (kvPut s (Key.todo tid)
            (Value.todoVal (newTodoRecord pid tid now title description priority)))
          (Key.projectTodos pid) (Value.ids (getTodoList s pid ++ [tid])),
        events := [KVEvent.getE (Key.project pid),
                   KVEvent.putE (Key.todo tid)
                     (Value.todoVal (newTodoRecord pid tid now title description priority)),
                   KVEvent.getE (Key.projectTodos pid),
                   KVEvent.putE (Key.projectTodos pid)
                     (Value.ids (getTodoList s pid ++ [tid]))] } := by
  simp only [create_todo, hp]
  rw [getTodoList_put_ne _ _ _ _ (fun h => Key.noConfusion h)]

theorem create_todo_kvGet {s : Store} {pid : String} {v : Value}
    (tid now title : String) (description : Option String)
    (priority : Option Priority) (hp : kvGet s (Key.project pid) = some v)
    (k : Key) :
    kvGet (create_todo s pid tid now title description priority).store k =
      if k = Key.projectTodos pid
        then some (Value.ids (getTodoList s pid ++ [tid]))
      else if k = Key.todo tid
        then some (Value.todoVal (newTodoRecord pid tid now title description priority))
      else kvGet s k := by
  rw [create_todo_run tid now title description priority hp]
  simp only []
  rw [kvGet_put, kvGet_put]

theorem update_todo_run_absent {s : Store} {tid : String}
    (now : String) (title description : Option String)
    (status : Option Status) (priority : Option Priority)
    (ht : kvGet s (Key.todo tid) = none) :
    update_todo s tid now title description status priority =
      { result := Except.error s!"Todo with ID {tid} does not exist.",
        store := s,
        events := [KVEvent.getE (Key.todo tid)] } := by
  simp [update_todo, ht]

theorem update_todo_run {s : Store} {tid : String} {v : Value}
    (now : String) (title description : Option String)
    (status : Option Status) (priority : Option Priority)
    (ht : kvGet s (Key.todo tid) = some v) :
    update_todo s tid now title description status priority =
      { result := Except.ok (applyUpdates v.asTodo title description status priority now),
        store := kvPut s (Key.todo tid)
          (Value.todoVal (applyUpdates v.asTodo title description status priority now)),
        events := [KVEvent.getE (Key.todo tid),
                   KVEvent.putE (Key.todo tid)
                     (Value.todoVal (applyUpdates v.asTodo title description status priority now))] } := by
  simp [update_todo, ht]

theorem delete_todo_run_absent {s : Store} {tid : String}
    (ht : kvGet s (Key.todo tid) = none) :
    delete_todo s tid =
      { result := Except.error s!"Todo with ID {tid} does not exist.",
        store := s,
        events := [KVEvent.getE (Key.todo tid)] } := by
  simp [delete_todo, ht]

theorem delete_todo_run {s : Store} {tid : String} {v : Value}
    (ht : kvGet s (Key.todo tid) = some v) :
    delete_todo s tid =
      { result := Except.ok s!"Todo with ID {tid} has been deleted.",
        store := kvPut (kvDelete s (Key.todo tid))
          (Key.projectTodos v.asTodo.projectId)
          (Value.ids ((getTodoList s v.asTodo.projectId).filter
            (fun id => id != tid))),
        events := [KVEvent.getE (Key.todo tid),
                   KVEvent.delE (Key.todo tid),
                   KVEvent.getE (Key.projectTodos v.asTodo.projectId),
                   KVEvent.putE (Key.projectTodos v.asTodo.projectId)
                     (Value.ids ((getTodoList s v.asTodo.projectId).filter
                       (fun id => id != tid)))] } := by
  simp only [delete_todo, ht]
  rw [getTodoList_del_ne _ _ _ (fun h => Key.noConfusion h)]

theorem delete_todo_kvGet {s : Store} {tid : String} {v : Value}
    (ht : kvGet s (Key.todo tid) = some v) (k : Key) :
    kvGet (delete_todo s tid).store k =
      if k = Key.projectTodos v.asTodo.projectId
        then some (Value.ids ((getTodoList s v.asTodo.projectId).filter
          (fun id => id != tid)))
      else if k = Key.todo tid then none
      else kvGet s k := by
  rw [delete_todo_run ht]
  simp only []
  rw [kvGet_put, kvGet_delete]

theorem delete_project_run_absent {s : Store} {pid : String}
    (hp : kvGet s (Key.project pid) = none) :
    delete_project s pid =
      { result := Except.error s!"Project with ID {pid} does not exist.",
        store := s,
        events := [KVEvent.getE (Key.project pid)] } := by
  simp [delete_project, hp]

theorem delete_project_run {s : Store} {pid : String} {v : Value}
    (hp : kvGet s (Key.project pid) = some v) :
    delete_project s pid =
      { result := Except.ok
          s!"Project with ID {pid} and its associated todos have been deleted.",
        store := kvPut
          (kvDelete
            (kvDelete
              ((getTodoList s pid).foldl
                (fun acc todoId => kvDelete acc (Key.todo todoId)) s)
              (Key.project pid))
            (Key.projectTodos pid))
          Key.projectList
          (Value.ids ((getProjectList s).filter (fun id => id != pid))),
        events := KVEvent.getE (Key.project pid) ::
          KVEvent.getE (Key.projectTodos pid) ::
          ((getTodoList s pid).map (fun todoId => KVEvent.delE (Key.todo todoId)) ++
           [KVEvent.delE (Key.project pid),
            KVEvent.delE (Key.projectTodos pid),
            KVEvent.getE Key.projectList,
            KVEvent.putE Key.projectList
              (Value.ids ((getProjectList s).filter (fun id => id != pid)))]) } := by
  simp only [delete_project, hp]
  rw [getProjectList_del_ne _ _ (fun h => Key.noConfusion h),
    getProjectList_del_ne _ _ (fun h => Key.noConfusion h),
    getProjectList_foldl_delete]

theorem delete_project_kvGet {s : Store} {pid : String} {v : Value}
    (hp : kvGet s (Key.project pid) = some v) (k : Key) :
    kvGet (delete_project s pid).store k =
      if k = Key.projectList
        then some (Value.ids ((getProjectList s).filter (fun id => id != pid)))
      else if k = Key.projectTodos pid then none
      else if k = Key.project pid then none
      else if k ∈ (getTodoList s pid).map Key.todo then none
      else kvGet s k := by
  rw [delete_project_run hp]
  simp only []
  rw [kvGet_put, kvGet_delete, kvGet_delete, kvGet_foldl_delete]

theorem delete_project_getProjectList {s : Store} {pid : String} {v : Value}
    (hp : kvGet s (Key.project pid) = some v) :
    getProjectList (delete_project s pid).store =
      (getProjectList s).filter (fun id => id != pid) := by
  unfold getProjectList
  rw [delete_project_kvGet hp]
  simp only [if_pos rfl]
  rfl

theorem delete_project_getTodoList {s : Store} {pid : String} {v : Value}
    (hp : kvGet s (Key.project pid) = some v) (x : String) :
    getTodoList (delete_project s pid).store x =
      if x = pid then [] else getTodoList s x := by
  unfold getTodoList
  rw [delete_project_kvGet hp]
  by_cases hx : x = pid
  · simp [hx, Value.asIds]
  · simp [hx]

theorem applyUpdates_id (t : Todo) (ti d : Option String) (st : Option Status)
    (pr : Option Priority) (now : String) :
    (applyUpdates t ti d st pr now).id = t.id := by
  unfold applyUpdates
  cases ti <;> cases d <;> cases st <;> cases pr <;> rfl

theorem applyUpdates_projectId (t : Todo) (ti d : Option String)
    (st : Option Status) (pr : Option Priority) (now : String) :
    (applyUpdates t ti d st pr now).projectId = t.projectId := by
  unfold applyUpdates
  cases ti <;> cases d <;> cases st <;> cases pr <;> rfl

theorem applyUpdates_createdAt (t : Todo) (ti d : Option String)
    (st : Option Status) (pr : Option Priority) (now : String) :
    (applyUpdates t ti d st pr now).createdAt = t.createdAt := by
  unfold applyUpdates
  cases ti <;> cases d <;> cases st <;> cases pr <;> rfl

theorem applyUpdates_title (t : Todo) (ti d : Option String) (st : Option Status)
    (pr : Option Priority) (now : String) :
    (applyUpdates t ti d st pr now).title = ti.getD t.title := by
  unfold applyUpdates
  cases ti <;> cases d <;> cases st <;> cases pr <;> rfl

theorem applyUpdates_description (t : Todo) (ti d : Option String)
    (st : Option Status) (pr : Option Priority) (now : String) :
    (applyUpdates t ti d st pr now).description = d.getD t.description := by
  unfold applyUpdates
  cases ti <;> cases d <;> cases st <;> cases pr <;> rfl

theorem applyUpdates_status (t : Todo) (ti d : Option String) (st : Option Status)
    (pr : Option Priority) (now : String) :
    (applyUpdates t ti d st pr now).status = st.getD t.status := by
  unfold applyUpdates
  cases ti <;> cases d <;> cases st <;> cases pr <;> rfl

theorem applyUpdates_priority (t : Todo) (ti d : Option String)
    (st : Option Status) (pr : Option Priority) (now : String) :
    (applyUpdates t ti d st pr now).priority = pr.getD t.priority := by
  unfold applyUpdates
  cases ti <;> cases d <;> cases st <;> cases pr <;> rfl

theorem applyUpdates_updatedAt (t : Todo) (ti d : Option String)
    (st : Option Status) (pr : Option Priority) (now : String) :
    (applyUpdates t ti d st pr now).updatedAt = now := by
  unfold applyUpdates
  cases ti <;> cases d <;> cases st <;> cases pr <;> rfl

theorem todo_unique_list {s : Store} (h : AuxInv s) {tid x y : String}
    (hx : tid ∈ getTodoList s x) (hy : tid ∈ getTodoList s y) : x = y := by
  rcases h.todo_mem_rec x tid hx with ⟨t1, h1, e1⟩
  rcases h.todo_mem_rec y tid hy with ⟨t2, h2, e2⟩
  rw [h1] at h2
  have h3 := Value.todoVal.inj (Option.some.inj h2)
  rw [← e1, ← e2, h3]

theorem auxInv_nil : AuxInv [] := by
  refine ⟨?_, ?_, ?_, ?_, ?_, ?_, ?_⟩ <;>
    simp [StoreTyped, getProjectList, getTodoList, kvGet]

theorem auxInv_create_project (s : Store) (pid now name description : String)
    (h : AuxInv s) (hfresh : kvGet s (Key.project pid) = none) :
    AuxInv (create_project s pid now name description).store := by
  have hpidL : pid ∉ getProjectList s := by
    intro hm
    rcases h.proj_mem_rec pid hm with ⟨p, hp⟩
    rw [hfresh] at hp
    exact Option.noConfusion hp
  have hkv := create_project_kvGet s pid now name description
  have hPL := create_project_getProjectList s pid now name description
  have hTL := create_project_getTodoList s pid now name description
  have hstore : (create_project s pid now name description).store =
      kvPut (kvPut s (Key.project pid)
        (Value.proj (newProjectRecord pid now name description)))
        Key.projectList (Value.ids (getProjectList s ++ [pid])) := by
    rw [create_project_run]
  refine ⟨?_, ?_, ?_, ?_, ?_, ?_, ?_⟩
  · rw [hstore]
    exact storeTyped_put (storeTyped_put h.typed rfl) trivial
  · intro q hq
    rw [hPL] at hq
    rw [hkv (Key.project q), if_neg (fun hh => Key.noConfusion hh)]
    rcases List.mem_append.1 hq with hq1 | hq2
    · by_cases hq' : q = pid
      · subst hq'
        rw [if_pos rfl]
        exact ⟨_, rfl⟩
      · rw [if_neg (by simpa using hq')]
        exact h.proj_mem_rec q hq1
    · have hq2' : q = pid := by simpa using hq2
      subst hq2'
      rw [if_pos rfl]
      exact ⟨_, rfl⟩
  · intro x tid htid
    rw [hTL] at htid
    rcases h.todo_mem_rec x tid htid with ⟨t, ht, hpr⟩
    refine ⟨t, ?_, hpr⟩
    rw [hkv (Key.todo tid), if_neg (fun hh => Key.noConfusion hh),
      if_neg (fun hh => Key.noConfusion hh)]
    exact ht
  · intro q p hq
    rw [hPL]
    rw [hkv (Key.project q), if_neg (fun hh => Key.noConfusion hh)] at hq
    by_cases hq' : q = pid
    · subst hq'
      exact List.mem_append.2 (Or.inr (by simp))
    · rw [if_neg (by simpa using hq')] at hq
      exact List.mem_append.2 (Or.inl (h.proj_rec_mem q p hq))
  · intro tid t ht
    rw [hkv (Key.todo tid), if_neg (fun hh => Key.noConfusion hh),
      if_neg (fun hh => Key.noConfusion hh)] at ht
    rw [hTL]
    exact h.todo_rec_mem tid t ht
  · rw [hPL]
    refine List.Nodup.append h.proj_nodup (List.nodup_singleton pid) ?_
    intro a ha hb
    rw [List.mem_singleton] at hb
    subst hb
    exact hpidL ha
  · intro x
    rw [hTL]
    exact h.todo_nodup x

theorem auxInv_create_todo (s : Store) (pid tid now title : String)
    (description : Option String) (priority : Option Priority)
    (h : AuxInv s) (hfresh : kvGet s (Key.todo tid) = none) :
    AuxInv (create_todo s pid tid now title description priority).store := by
  cases hp : kvGet s (Key.project pid) with
  | none =>
    rw [create_todo_run_absent tid now title description priority hp]
    exact h
  | some v =>
    have htidL : ∀ x, tid ∉ getTodoList s x := by
      intro x hm
      rcases h.todo_mem_rec x tid hm with ⟨t, ht, _⟩
      rw [hfresh] at ht
      exact Option.noConfusion ht
    have hkv := create_todo_kvGet tid now title description priority hp
    have hPL : getProjectList
        (create_todo s pid tid now title description priority).store =
        getProjectList s := by
      unfold getProjectList
      rw [hkv Key.projectList, if_neg (fun hh => Key.noConfusion hh),
        if_neg (fun hh => Key.noConfusion hh)]
    have hTL : ∀ x, getTodoList
        (create_todo s pid tid now title description priority).store x =
        if x = pid then getTodoList s pid ++ [tid] else getTodoList s x := by
      intro x
      unfold getTodoList
      rw [hkv (Key.projectTodos x)]
      by_cases hx : x = pid
      · subst hx
        rw [if_pos rfl]
        simp only [Value.asIds]
        rfl
      · rw [if_neg (by simpa using hx), if_neg (fun hh => Key.noConfusion hh),
          if_neg hx]
    have hstore : (create_todo s pid tid now title description priority).store =
        kvPut (kvPut s (Key.todo tid)
          (Value.todoVal (newTodoRecord pid tid now title description priority)))
          (Key.projectTodos pid) (Value.ids (getTodoList s pid ++ [tid])) := by
      rw [create_todo_run tid now title description priority hp]
    refine ⟨?_, ?_, ?_, ?_, ?_, ?_, ?_⟩
    · rw [hstore]
      exact storeTyped_put (storeTyped_put h.typed rfl) trivial
    · intro q hq
      rw [hPL] at hq
      rcases h.proj_mem_rec q hq with ⟨p, hpq⟩
      refine ⟨p, ?_⟩
      rw [hkv (Key.project q), if_neg (fun hh => Key.noConfusion hh),
        if_neg (fun hh => Key.noConfusion hh)]
      exact hpq
    · intro x2 tid2 htid2
      rw [hTL x2] at htid2
      by_cases hx : x2 = pid
      · rw [if_pos hx] at htid2
        rcases List.mem_append.1 htid2 with h1 | h2
        · rcases h.todo_mem_rec pid tid2 h1 with ⟨t, ht, hpr⟩
          have htid2ne : tid2 ≠ tid := fun hh => htidL pid (hh ▸ h1)
          refine ⟨t, ?_, by rw [hpr, hx]⟩
          rw [hkv (Key.todo tid2), if_neg (fun hh => Key.noConfusion hh),
            if_neg (by simpa using htid2ne)]
          exact ht
        · have h2' : tid2 = tid := by simpa using h2
          refine ⟨newTodoRecord pid tid now title description priority, ?_,
            by simp [newTodoRecord, hx]⟩
          rw [hkv (Key.todo tid2), if_neg (fun hh => Key.noConfusion hh),
            if_pos (by rw [h2'])]
      · rw [if_neg hx] at htid2
        rcases h.todo_mem_rec x2 tid2 htid2 with ⟨t, ht, hpr⟩
        have htid2ne : tid2 ≠ tid := fun hh => htidL x2 (hh ▸ htid2)
        refine ⟨t, ?_, hpr⟩
        rw [hkv (Key.todo tid2), if_neg (fun hh => Key.noConfusion hh),
          if_neg (by simpa using htid2ne)]
        exact ht
    · intro q p hq
      rw [hkv (Key.project q), if_neg (fun hh => Key.noConfusion hh),
        if_neg (fun hh => Key.noConfusion hh)] at hq
      rw [hPL]
      exact h.proj_rec_mem q p hq
    · intro tid2 t ht
      rw [hkv (Key.todo tid2), if_neg (fun hh => Key.noConfusion hh)] at ht
      by_cases h2 : tid2 = tid
      · subst h2
        rw [if_pos rfl] at ht
        have h3 := Value.todoVal.inj (Option.some.inj ht)
        rw [hTL, ← h3]
        have hproj : (newTodoRecord pid tid2 now title description priority).projectId = pid := rfl
        rw [hproj, if_pos rfl]
        simp
      · rw [if_neg (by simpa using h2)] at ht
        have hmem := h.todo_rec_mem tid2 t ht
        rw [hTL]
        by_cases h3 : t.projectId = pid
        · rw [if_pos h3]
          exact List.mem_append.2 (Or.inl (h3 ▸ hmem))
        · rw [if_neg h3]
          exact hmem
    · rw [hPL]
      exact h.proj_nodup
    · intro x
      rw [hTL x]
      by_cases hx : x = pid
      · rw [if_pos hx]
        refine List.Nodup.append (h.todo_nodup pid) (List.nodup_singleton tid) ?_
        intro a ha hb
        rw [List.mem_singleton] at hb
        subst hb
        exact htidL pid ha
      · rw [if_neg hx]
        exact h.todo_nodup x

theorem typed_todo_val {s : Store} (h : StoreTyped s) {tid : String} {v : Value}
    (ht : kvGet s (Key.todo tid) = some v) :
    ∃ t0 : Todo, v = Value.todoVal t0 ∧ t0.id = tid := by
  have hv := storeTyped_get h ht
  cases v with
  | ids l => exact absurd hv (by simp [ValueTyped])
  | proj p => exact absurd hv (by simp [ValueTyped])
  | todoVal t => exact ⟨t, rfl, hv⟩

theorem typed_proj_val {s : Store} (h : StoreTyped s) {pid : String} {v : Value}
    (hp : kvGet s (Key.project pid) = some v) :
    ∃ p0 : Project, v = Value.proj p0 ∧ p0.id = pid := by
  have hv := storeTyped_get h hp
  cases v with
  | ids l => exact absurd hv (by simp [ValueTyped])
  | proj p => exact ⟨p, rfl, hv⟩
  | todoVal t => exact absurd hv (by simp [ValueTyped])

theorem auxInv_update_todo (s : Store) (tid now : String)
    (title description : Option String) (status : Option Status)
    (priority : Option Priority) (h : AuxInv s) :
    AuxInv (update_todo s tid now title description status priority).store := by
  cases ht : kvGet s (Key.todo tid) with
  | none =>
    rw [update_todo_run_absent now title description status priority ht]
    exact h
  | some v =>
    obtain ⟨t0, rfl, hid⟩ := typed_todo_val h.typed ht
    have hkv : ∀ k,
        kvGet (update_todo s tid now title description status priority).store k =
        if k = Key.todo tid
          then some (Value.todoVal
            (applyUpdates t0 title description status priority now))
        else kvGet s k := by
      intro k
      rw [update_todo_run now title description status priority ht]
      simp only []
      rw [kvGet_put]
      rfl
    have hPL : getProjectList
        (update_todo s tid now title description status priority).store =
        getProjectList s := by
      unfold getProjectList
      rw [hkv Key.projectList, if_neg (fun hh => Key.noConfusion hh)]
    have hTL : ∀ x, getTodoList
        (update_todo s tid now title description status priority).store x =
        getTodoList s x := by
      intro x
      unfold getTodoList
      rw [hkv (Key.projectTodos x), if_neg (fun hh => Key.noConfusion hh)]
    refine ⟨?_, ?_, ?_, ?_, ?_, ?_, ?_⟩
    · have hstore :
          (update_todo s tid now title description status priority).store =
          kvPut s (Key.todo tid) (Value.todoVal
            (applyUpdates (Value.todoVal t0).asTodo title description status
              priority now)) := by
        rw [update_todo_run now title description status priority ht]
      rw [hstore]
      refine storeTyped_put h.typed ?_
      show (applyUpdates (Value.todoVal t0).asTodo title description status
        priority now).id = tid
      rw [applyUpdates_id]
      exact hid
    · intro q hq
      rw [hPL] at hq
      rcases h.proj_mem_rec q hq with ⟨p, hpq⟩
      refine ⟨p, ?_⟩
      rw [hkv (Key.project q), if_neg (fun hh => Key.noConfusion hh)]
      exact hpq
    · intro x tid2 htid2
      rw [hTL x] at htid2
      rcases h.todo_mem_rec x tid2 htid2 with ⟨t, ht2, hpr⟩
      by_cases h2 : tid2 = tid
      · subst h2
        rw [ht] at ht2
        have h3 := Value.todoVal.inj (Option.some.inj ht2)
        refine ⟨applyUpdates t0 title description status priority now, ?_, ?_⟩
        · rw [hkv (Key.todo tid2), if_pos rfl]
        · rw [applyUpdates_projectId, h3]
          exact hpr
      · refine ⟨t, ?_, hpr⟩
        rw [hkv (Key.todo tid2), if_neg (by simpa using h2)]
        exact ht2
    · intro q p hq
      rw [hkv (Key.project q), if_neg (fun hh => Key.noConfusion hh)] at hq
      rw [hPL]
      exact h.proj_rec_mem q p hq
    · intro tid2 t ht2
      by_cases h2 : tid2 = tid
      · subst h2
        rw [hkv (Key.todo tid2), if_pos rfl] at ht2
        have h3 := Value.todoVal.inj (Option.some.inj ht2)
        rw [hTL, ← h3, applyUpdates_projectId]
        exact h.todo_rec_mem tid2 t0 ht
      · rw [hkv (Key.todo tid2), if_neg (by simpa using h2)] at ht2
        rw [hTL]
        exact h.todo_rec_mem tid2 t ht2
    · rw [hPL]
      exact h.proj_nodup
    · intro x
      rw [hTL]
      exact h.todo_nodup x

theorem auxInv_delete_todo (s : Store) (tid : String) (h : AuxInv s) :
    AuxInv (delete_todo s tid).store := by
  cases ht : kvGet s (Key.todo tid) with
  | none =>
    rw [delete_todo_run_absent ht]
    exact h
  | some v =>
    obtain ⟨t0, rfl, hid⟩ := typed_todo_val h.typed ht
    have hkv : ∀ k, kvGet (delete_todo s tid).store k =
        if k = Key.projectTodos t0.projectId
          then some (Value.ids ((getTodoList s t0.projectId).filter
            (fun id => id != tid)))
        else if k = Key.todo tid then none
        else kvGet s k := by
      intro k
      rw [delete_todo_kvGet ht]
      rfl
    have hPL : getProjectList (delete_todo s tid).store = getProjectList s := by
      unfold getProjectList
      rw [hkv Key.projectList, if_neg (fun hh => Key.noConfusion hh),
        if_neg (fun hh => Key.noConfusion hh)]
    have hTL : ∀ x, getTodoList (delete_todo s tid).store x =
        if x = t0.projectId
          then (getTodoList s t0.projectId).filter (fun id => id != tid)
        else getTodoList s x := by
      intro x
      unfold getTodoList
      rw [hkv (Key.projectTodos x)]
      by_cases hx : x = t0.projectId
      · rw [if_pos (by rw [hx]), if_pos hx]
        rfl
      · rw [if_neg (by simpa using hx), if_neg (fun hh => Key.noConfusion hh),
          if_neg hx]
    have hmemL : tid ∈ getTodoList s t0.projectId := h.todo_rec_mem tid t0 ht
    refine ⟨?_, ?_, ?_, ?_, ?_, ?_, ?_⟩
    · have hstore : (delete_todo s tid).store =
          kvPut (kvDelete s (Key.todo tid))
            (Key.projectTodos (Value.todoVal t0).asTodo.projectId)
            (Value.ids ((getTodoList s (Value.todoVal t0).asTodo.projectId).filter
              (fun id => id != tid))) := by
        rw [delete_todo_run ht]
      rw [hstore]
      exact storeTyped_put (storeTyped_delete h.typed) trivial
    · intro q hq
      rw [hPL] at hq
      rcases h.proj_mem_rec q hq with ⟨p, hpq⟩
      refine ⟨p, ?_⟩
      rw [hkv (Key.project q), if_neg (fun hh => Key.noConfusion hh),
        if_neg (fun hh => Key.noConfusion hh)]
      exact hpq
    · intro x tid2 htid2
      rw [hTL x] at htid2
      by_cases hx : x = t0.projectId
      · rw [if_pos hx] at htid2
        have hmf := List.mem_filter.1 htid2
        have hne : tid2 ≠ tid := by simpa using hmf.2
        rcases h.todo_mem_rec t0.projectId tid2 hmf.1 with ⟨t, ht2, hpr⟩
        refine ⟨t, ?_, by rw [hpr, hx]⟩
        rw [hkv (Key.todo tid2), if_neg (fun hh => Key.noConfusion hh),
          if_neg (by simpa using hne)]
        exact ht2
      · rw [if_neg hx] at htid2
        rcases h.todo_mem_rec x tid2 htid2 with ⟨t, ht2, hpr⟩
        have hne : tid2 ≠ tid := by
          intro hh
          subst hh
          exact hx (todo_unique_list h htid2 hmemL)
        refine ⟨t, ?_, hpr⟩
        rw [hkv (Key.todo tid2), if_neg (fun hh => Key.noConfusion hh),
          if_neg (by simpa using hne)]
        exact ht2
    · intro q p hq
      rw [hkv (Key.project q), if_neg (fun hh => Key.noConfusion hh),
        if_neg (fun hh => Key.noConfusion hh)] at hq
      rw [hPL]
      exact h.proj_rec_mem q p hq
    · intro tid2 t ht2
      have hne : tid2 ≠ tid := by
        intro hh
        rw [hh, hkv (Key.todo tid), if_neg (fun hh2 => Key.noConfusion hh2),
          if_pos rfl] at ht2
        exact Option.noConfusion ht2
      rw [hkv (Key.todo tid2), if_neg (fun hh => Key.noConfusion hh),
        if_neg (by simpa using hne)] at ht2
      have hmem2 := h.todo_rec_mem tid2 t ht2
      rw [hTL]
      by_cases hx : t.projectId = t0.projectId
      · rw [if_pos hx]
        exact List.mem_filter.2 ⟨hx ▸ hmem2, by simpa using hne⟩
      · rw [if_neg hx]
        exact hmem2
    · rw [hPL]
      exact h.proj_nodup
    · intro x
      rw [hTL x]
      by_cases hx : x = t0.projectId
      · rw [if_pos hx]
        exact (h.todo_nodup t0.projectId).filter _
      · rw [if_neg hx]
        exact h.todo_nodup x

theorem auxInv_delete_project (s : Store) (pid : String) (h : AuxInv s) :
    AuxInv (delete_project s pid).store := by
  cases hp : kvGet s (Key.project pid) with
  | none =>
    rw [delete_project_run_absent hp]
    exact h
  | some v =>
    have hkv := delete_project_kvGet hp
    have hPL := delete_project_getProjectList hp
    have hTL := delete_project_getTodoList hp
    refine ⟨?_, ?_, ?_, ?_, ?_, ?_, ?_⟩
    · have hstore : (delete_project s pid).store =
          kvPut (kvDelete (kvDelete
            ((getTodoList s pid).foldl
              (fun acc todoId => kvDelete acc (Key.todo todoId)) s)
            (Key.project pid)) (Key.projectTodos pid))
            Key.projectList
            (Value.ids ((getProjectList s).filter (fun id => id != pid))) := by
        rw [delete_project_run hp]
      rw [hstore]
      exact storeTyped_put (storeTyped_delete (storeTyped_delete
        (storeTyped_foldl_delete _ h.typed))) trivial
    · intro q hq
      rw [hPL] at hq
      have hmf := List.mem_filter.1 hq
      have hqne : q ≠ pid := by simpa using hmf.2
      rcases h.proj_mem_rec q hmf.1 with ⟨p, hpq⟩
      refine ⟨p, ?_⟩
      rw [hkv (Key.project q), if_neg (fun hh => Key.noConfusion hh),
        if_neg (fun hh => Key.noConfusion hh), if_neg (by simpa using hqne),
        if_neg (by simp)]
      exact hpq
    · intro x tid htid
      rw [hTL x] at htid
      by_cases hx : x = pid
      · rw [if_pos hx] at htid
        exact absurd htid (List.not_mem_nil tid)
      · rw [if_neg hx] at htid
        rcases h.todo_mem_rec x tid htid with ⟨t, ht2, hpr⟩
        have htpid : tid ∉ getTodoList s pid := by
          intro hmm
          exact hx (todo_unique_list h htid hmm)
        refine ⟨t, ?_, hpr⟩
        rw [hkv (Key.todo tid), if_neg (fun hh => Key.noConfusion hh),
          if_neg (fun hh => Key.noConfusion hh),
          if_neg (fun hh => Key.noConfusion hh), if_neg (by simpa using htpid)]
        exact ht2
    · intro q p hq
      rw [hkv (Key.project q), if_neg (fun hh => Key.noConfusion hh),
        if_neg (fun hh => Key.noConfusion hh)] at hq
      by_cases hq' : q = pid
      · rw [if_pos (by rw [hq'])] at hq
        exact absurd hq (by simp)
      · rw [if_neg (by simpa using hq'), if_neg (by simp)] at hq
        rw [hPL]
        exact List.mem_filter.2 ⟨h.proj_rec_mem q p hq, by simpa using hq'⟩
    · intro tid t ht2
      rw [hkv (Key.todo tid), if_neg (fun hh => Key.noConfusion hh),
        if_neg (fun hh => Key.noConfusion hh),
        if_neg (fun hh => Key.noConfusion hh)] at ht2
      by_cases hin : Key.todo tid ∈ (getTodoList s pid).map Key.todo
      · rw [if_pos hin] at ht2
        exact absurd ht2 (by simp)
      · rw [if_neg hin] at ht2
        have hmem := h.todo_rec_mem tid t ht2
        have htndel : tid ∉ getTodoList s pid := by
          intro hmm
          exact hin (List.mem_map.2 ⟨tid, hmm, rfl⟩)
        have hxne : t.projectId ≠ pid := by
          intro hh
          exact htndel (hh ▸ hmem)
        rw [hTL, if_neg hxne]
        exact hmem
    · rw [hPL]
      exact (h.proj_nodup).filter _
    · intro x
      rw [hTL x]
      by_cases hx : x = pid
      · rw [if_pos hx]
        exact List.nodup_nil
      · rw [if_neg hx]
        exact h.todo_nodup x

theorem reachable_auxInv {s : Store} (h : Reachable s) : AuxInv s := by
  induction h with
  | empty => exact auxInv_nil
  | step_create_project _ hf ih => exact auxInv_create_project _ _ _ _ _ ih hf
  | step_list_projects _ ih =>
    rw [list_projects_store]
    exact ih
  | step_get_project _ ih =>
    rw [get_project_store]
    exact ih
  | step_delete_project _ ih => exact auxInv_delete_project _ _ ih
  | step_create_todo _ hf ih => exact auxInv_create_todo _ _ _ _ _ _ _ ih hf
  | step_update_todo _ ih => exact auxInv_update_todo _ _ _ _ _ _ _ ih
  | step_get_todo _ ih =>
    rw [get_todo_store]
    exact ih
  | step_delete_todo _ ih => exact auxInv_delete_todo _ _ ih
  | step_list_todos _ ih =>
    rw [list_todos_store]
    exact ih

/-- C1: for every state reachable from the empty store by a finite
sequence of completed handler runs, every id in the project index list
resolves to a stored project record, every id in a project's todo
index list resolves to a stored todo record whose projectId is that
project, and conversely every stored project/todo record's id appears
in its owning index list exactly once. -/
theorem c1_reachable_invariant (s : Store) (h : Reachable s) : Invariant s := by
  have a := reachable_auxInv h
  refine ⟨a.proj_mem_rec, a.todo_mem_rec, ?_, ?_⟩
  · intro pid p hp
    obtain ⟨p0, hv, hid⟩ := typed_proj_val a.typed hp
    have hpid : p.id = pid := by
      rw [Value.proj.inj hv]
      exact hid
    rw [hpid]
    exact List.count_eq_one_of_mem a.proj_nodup (a.proj_rec_mem pid p hp)
  · intro tid t ht
    obtain ⟨t0, hv, hid⟩ := typed_todo_val a.typed ht
    have htid : t.id = tid := by
      rw [Value.todoVal.inj hv]
      exact hid
    rw [htid]
    exact List.count_eq_one_of_mem (a.todo_nodup t.projectId)
      (a.todo_rec_mem tid t ht)

theorem c1_witness : Invariant demoStore2 := by
  apply c1_reachable_invariant
  show Reachable (create_todo demoStore1 "p1" "t1" "2024-01-02T00:00:00Z"
    "Write copy" none none).store
  refine Reachable.step_create_todo ?_ ?_
  · show Reachable (create_project [] "p1" "2024-01-01T00:00:00Z" "Launch"
      "Q1 launch").store
    exact Reachable.step_create_project Reachable.empty rfl
  · decide

/-- C2 counterexample: on a store holding one project and no todos,
delete_project issues its deletes as [project record, todo index key],
not in the order the spec prescribes ([todo index key, project
record]). -/
theorem c2_counterexample :
    (delete_project demoStore1 "p1").events.filter KVEvent.isDel ≠
      specDeleteOrder demoStore1 "p1" := by
  decide

/-- C2 (amended): for every existing project id, delete_project's
entire KV call trace is, in this order: the existence-check read of
the project record, the load of the project's todo index list, one
delete per todo record referenced by that list (in list order), the
delete of the project record, the delete of the todo index key itself,
and finally the removal of the id from the project index list (its
read followed by the rewrite of the filtered list).  Relative to the
spec sentence, the project-record delete and the todo-index-key delete
are swapped. -/
theorem c2_delete_order {s : Store} {pid : String} {v : Value}
    (hp : kvGet s (Key.project pid) = some v) :
    (delete_project s pid).events =
      KVEvent.getE (Key.project pid) ::
      KVEvent.getE (Key.projectTodos pid) ::
      ((getTodoList s pid).map (fun todoId => KVEvent.delE (Key.todo todoId)) ++
       [KVEvent.delE (Key.project pid),
        KVEvent.delE (Key.projectTodos pid),
        KVEvent.getE Key.projectList,
        KVEvent.putE Key.projectList
          (Value.ids ((getProjectList s).filter (fun id => id != pid)))]) := by
  rw [delete_project_run hp]

theorem c2_witness :
    (delete_project demoStore1 "p1").events =
      KVEvent.getE (Key.project "p1") ::
      KVEvent.getE (Key.projectTodos "p1") ::
      ((getTodoList demoStore1 "p1").map
        (fun todoId => KVEvent.delE (Key.todo todoId)) ++
       [KVEvent.delE (Key.project "p1"),
        KVEvent.delE (Key.projectTodos "p1"),
        KVEvent.getE Key.projectList,
        KVEvent.putE Key.projectList
          (Value.ids ((getProjectList demoStore1).filter
            (fun id => id != "p1")))]) :=
  c2_delete_order (by decide : kvGet demoStore1 (Key.project "p1") =
    some (Value.proj (newProjectRecord "p1" "2024-01-01T00:00:00Z" "Launch"
      "Q1 launch")))

/-- C4: createTodo on a projectId whose record is absent fails with the
NotFound message, leaves the store unchanged, and performs no KV call
beyond the single existence-check read. -/
theorem c4_create_todo_absent (s : Store) (pid tid now title : String)
    (description : Option String) (priority : Option Priority)
    (hp : kvGet s (Key.project pid) = none) :
    (create_todo s pid tid now title description priority).result =
      Except.error s!"Project with ID {pid} does not exist." ∧
    (create_todo s pid tid now title description priority).store = s ∧
    (create_todo s pid tid now title description priority).events =
      [KVEvent.getE (Key.project pid)] := by
  rw [create_todo_run_absent tid now title description priority hp]
  exact ⟨rfl, rfl, rfl⟩

theorem c4_witness :
    (create_todo [] "p" "t" "T0" "Task" none none).result =
      Except.error "Project with ID p does not exist." ∧
    (create_todo [] "p" "t" "T0" "Task" none none).store = [] ∧
    (create_todo [] "p" "t" "T0" "Task" none none).events =
      [KVEvent.getE (Key.project "p")] :=
  c4_create_todo_absent [] "p" "t" "T0" "Task" none none rfl

/-- C7: after a successful deleteTodo, a second deleteTodo of the same
id fails with the NotFound message, returns the first call's store
untouched, and performs only the single existence-check read. -/
theorem c7_delete_todo_twice (s : Store) (tid : String) (v : Value)
    (ht : kvGet s (Key.todo tid) = some v) :
    (delete_todo (delete_todo s tid).store tid).result =
      Except.error s!"Todo with ID {tid} does not exist." ∧
    (delete_todo (delete_todo s tid).store tid).store =
      (delete_todo s tid).store ∧
    (delete_todo (delete_todo s tid).store tid).events =
      [KVEvent.getE (Key.todo tid)] := by
  have hnone : kvGet (delete_todo s tid).store (Key.todo tid) = none := by
    rw [delete_todo_kvGet ht, if_neg (fun hh => Key.noConfusion hh), if_pos rfl]
  rw [delete_todo_run_absent hnone]
  exact ⟨rfl, rfl, rfl⟩

theorem c7_witness :
    (delete_todo (delete_todo demoStore2 "t1").store "t1").result =
      Except.error "Todo with ID t1 does not exist." ∧
    (delete_todo (delete_todo demoStore2 "t1").store "t1").store =
      (delete_todo demoStore2 "t1").store ∧
    (delete_todo (delete_todo demoStore2 "t1").store "t1").events =
      [KVEvent.getE (Key.todo "t1")] :=
  c7_delete_todo_twice demoStore2 "t1"
    (Value.todoVal (newTodoRecord "p1" "t1" "2024-01-02T00:00:00Z"
      "Write copy" none none)) (by decide)

/-- C9: list_projects never fails: it returns, in index-list order,
exactly the parsed records of the ids whose project record is present,
silently skipping ids whose record is missing. -/
theorem c9_list_projects_self_healing (s : Store) :
    ∃ l : List Project, (list_projects s).result = Except.ok l ∧
      l = (getProjectList s).filterMap
        (fun projectId => (kvGet s (Key.project projectId)).map Value.asProj) :=
  ⟨_, list_projects_result s, rfl⟩

/-- C3: after delete_project of an existing project (in a well-shaped
store), get_project of its id fails NotFound, list_projects contains
no record with its id, and get_todo of every id that was in the
project's todo index list with a stored record fails NotFound. -/
theorem c3_delete_project_cascade (s : Store) (pid : String) (v : Value)
    (htyped : StoreTyped s) (hp : kvGet s (Key.project pid) = some v) :
    (get_project (delete_project s pid).store pid).result =
      Except.error s!"Project with ID {pid} does not exist." ∧
    (∀ l, (list_projects (delete_project s pid).store).result = Except.ok l →
      ∀ q ∈ l, q.id ≠ pid) ∧
    (∀ tid tv, tid ∈ getTodoList s pid → kvGet s (Key.todo tid) = some tv →
      (get_todo (delete_project s pid).store tid).result =
        Except.error s!"Todo with ID {tid} does not exist.") := by
  have hkv := delete_project_kvGet hp
  have hPL := delete_project_getProjectList hp
  have hget : kvGet (delete_project s pid).store (Key.project pid) = none := by
    rw [hkv (Key.project pid), if_neg (fun hh => Key.noConfusion hh),
      if_neg (fun hh => Key.noConfusion hh), if_pos rfl]
  refine ⟨get_project_error hget, ?_, ?_⟩
  · intro l hl q hq
    rw [list_projects_result] at hl
    have hl2 := Except.ok.inj hl
    subst hl2
    rcases List.mem_filterMap.1 hq with ⟨q0, hq0mem, hq0⟩
    rw [hPL] at hq0mem
    have hq0f := List.mem_filter.1 hq0mem
    have hq0ne : q0 ≠ pid := by simpa using hq0f.2
    rw [hkv (Key.project q0), if_neg (fun hh => Key.noConfusion hh),
      if_neg (fun hh => Key.noConfusion hh), if_neg (by simpa using hq0ne),
      if_neg (by simp)] at hq0
    cases hv2 : kvGet s (Key.project q0) with
    | none =>
      rw [hv2] at hq0
      exact absurd hq0 (by simp)
    | some w =>
      rw [hv2] at hq0
      obtain ⟨p0, rfl, hpid0⟩ := typed_proj_val htyped hv2
      have hq' := Option.some.inj hq0
      rw [← hq']
      exact fun hh => hq0ne (hpid0.symm.trans hh)
  · intro tid tv htidmem htv
    apply get_todo_error
    rw [hkv (Key.todo tid), if_neg (fun hh => Key.noConfusion hh),
      if_neg (fun hh => Key.noConfusion hh),
      if_neg (fun hh => Key.noConfusion hh),
      if_pos (List.mem_map.2 ⟨tid, htidmem, rfl⟩)]

theorem c3_witness :
    (get_project (delete_project demoStore2 "p1").store "p1").result =
      Except.error "Project with ID p1 does not exist." ∧
    (∀ l, (list_projects (delete_project demoStore2 "p1").store).result =
        Except.ok l → ∀ q ∈ l, q.id ≠ "p1") ∧
    (∀ tid tv, tid ∈ getTodoList demoStore2 "p1" →
      kvGet demoStore2 (Key.todo tid) = some tv →
      (get_todo (delete_project demoStore2 "p1").store tid).result =
        Except.error s!"Todo with ID {tid} does not exist.") :=
  c3_delete_project_cascade demoStore2 "p1"
    (Value.proj (newProjectRecord "p1" "2024-01-01T00:00:00Z" "Launch"
      "Q1 launch")) (by decide) (by decide)

/-- C5: createTodo on an existing project returns and stores a record
whose description defaults to "" when omitted, whose priority defaults
to medium when omitted, whose status is pending, and its trace puts
the todo record before rewriting the todo index list with the id
appended. -/
theorem c5_create_todo_defaults (s : Store) (pid tid now title : String)
    (description : Option String) (priority : Option Priority) (v : Value)
    (hp : kvGet s (Key.project pid) = some v) :
    ∃ t : Todo,
      (create_todo s pid tid now title description priority).result =
        Except.ok t ∧
      (description = none → t.description = "") ∧
      (priority = none → t.priority = Priority.medium) ∧
      t.status = Status.pending ∧
      kvGet (create_todo s pid tid now title description priority).store
        (Key.todo tid) = some (Value.todoVal t) ∧
      (create_todo s pid tid now title description priority).events =
        [KVEvent.getE (Key.project pid),
         KVEvent.putE (Key.todo tid) (Value.todoVal t),
         KVEvent.getE (Key.projectTodos pid),
         KVEvent.putE (Key.projectTodos pid)
           (Value.ids (getTodoList s pid ++ [tid]))] := by
  refine ⟨newTodoRecord pid tid now title description priority,
    ?_, ?_, ?_, rfl, ?_, ?_⟩
  · rw [create_todo_run tid now title description priority hp]
  · intro hd
    simp [newTodoRecord, hd]
  · intro hpr
    simp [newTodoRecord, hpr]
  · rw [create_todo_kvGet tid now title description priority hp,
      if_neg (fun hh => Key.noConfusion hh), if_pos rfl]
  · rw [create_todo_run tid now title description priority hp]

theorem c5_witness :
    ∃ t : Todo,
      (create_todo demoStore1 "p1" "t9" "T9" "Write copy" none none).result =
        Except.ok t ∧
      ((none : Option String) = none → t.description = "") ∧
      ((none : Option Priority) = none → t.priority = Priority.medium) ∧
      t.status = Status.pending ∧
      kvGet (create_todo demoStore1 "p1" "t9" "T9" "Write copy" none none).store
        (Key.todo "t9") = some (Value.todoVal t) ∧
      (create_todo demoStore1 "p1" "t9" "T9" "Write copy" none none).events =
        [KVEvent.getE (Key.project "p1"),
         KVEvent.putE (Key.todo "t9") (Value.todoVal t),
         KVEvent.getE (Key.projectTodos "p1"),
         KVEvent.putE (Key.projectTodos "p1")
           (Value.ids (getTodoList demoStore1 "p1" ++ ["t9"]))] :=
  c5_create_todo_defaults demoStore1 "p1" "t9" "T9" "Write copy" none none
    (Value.proj (newProjectRecord "p1" "2024-01-01T00:00:00Z" "Launch"
      "Q1 launch")) (by decide)

/-- C6: updateTodo on an existing todo sets exactly the supplied
fields, always sets updatedAt to the fresh timestamp, keeps id,
projectId and createdAt (and every unsupplied field) unchanged,
rewrites the record under its key, and modifies no other key. -/
theorem c6_update_todo_partial (s : Store) (tid now : String)
    (title description : Option String) (status : Option Status)
    (priority : Option Priority) (t0 : Todo)
    (ht : kvGet s (Key.todo tid) = some (Value.todoVal t0)) :
    ∃ t1 : Todo,
      (update_todo s tid now title description status priority).result =
        Except.ok t1 ∧
      t1.title = title.getD t0.title ∧
      t1.description = description.getD t0.description ∧
      t1.status = status.getD t0.status ∧
      t1.priority = priority.getD t0.priority ∧
      t1.updatedAt = now ∧
      t1.id = t0.id ∧ t1.projectId = t0.projectId ∧
      t1.createdAt = t0.createdAt ∧
      kvGet (update_todo s tid now title description status priority).store
        (Key.todo tid) = some (Value.todoVal t1) ∧
      (∀ k, k ≠ Key.todo tid →
        kvGet (update_todo s tid now title description status priority).store k =
          kvGet s k) := by
  refine ⟨applyUpdates t0 title description status priority now, ?_,
    applyUpdates_title t0 title description status priority now,
    applyUpdates_description t0 title description status priority now,
    applyUpdates_status t0 title description status priority now,
    applyUpdates_priority t0 title description status priority now,
    applyUpdates_updatedAt t0 title description status priority now,
    applyUpdates_id t0 title description status priority now,
    applyUpdates_projectId t0 title description status priority now,
    applyUpdates_createdAt t0 title description status priority now,
    ?_, ?_⟩
  · rw [update_todo_run now title description status priority ht]
    rfl
  · rw [update_todo_run now title description status priority ht]
    simp only []
    rw [kvGet_put, if_pos rfl]
    rfl
  · intro k hk
    rw [update_todo_run now title description status priority ht]
    simp only []
    rw [kvGet_put, if_neg hk]

theorem c6_witness :
    ∃ t1 : Todo,
      (update_todo demoStore2 "t1" "2024-01-03T00:00:00Z" none none
        (some Status.completed) none).result = Except.ok t1 ∧
      t1.title = (none : Option String).getD "Write copy" ∧
      t1.description = (none : Option String).getD "" ∧
      t1.status = (some Status.completed).getD Status.pending ∧
      t1.priority = (none : Option Priority).getD Priority.medium ∧
      t1.updatedAt = "2024-01-03T00:00:00Z" ∧
      t1.id = "t1" ∧ t1.projectId = "p1" ∧
      t1.createdAt = "2024-01-02T00:00:00Z" ∧
      kvGet (update_todo demoStore2 "t1" "2024-01-03T00:00:00Z" none none
        (some Status.completed) none).store (Key.todo "t1") =
        some (Value.todoVal t1) ∧
      (∀ k, k ≠ Key.todo "t1" →
        kvGet (update_todo demoStore2 "t1" "2024-01-03T00:00:00Z" none none
          (some Status.completed) none).store k = kvGet demoStore2 k) :=
  c6_update_todo_partial demoStore2 "t1" "2024-01-03T00:00:00Z" none none
    (some Status.completed) none
    (newTodoRecord "p1" "t1" "2024-01-02T00:00:00Z" "Write copy" none none)
    (by decide)

/-- C8: list_todos fails NotFound when the project record is absent;
otherwise it returns the todos of the project whose records exist, in
todo-index order (a sublist of the unfiltered sequence), filtered by
the optional status equality; and the unfiltered sequence is exactly
the index list's parsed present records, skipping missing ones. -/
theorem c8_list_todos (s : Store) (pid : String) (status : Option Status) :
    (kvGet s (Key.project pid) = none →
      (list_todos s pid status).result =
        Except.error s!"Project with ID {pid} does not exist.") ∧
    (∀ v, kvGet s (Key.project pid) = some v →
      ∃ l : List Todo,
        (list_todos s pid status).result = Except.ok l ∧
        l = (match status with
          | some st =>
            (getTodosByProject s pid).filter (fun todo => todo.status == st)
          | none => getTodosByProject s pid) ∧
        l.Sublist (getTodosByProject s pid)) ∧
    getTodosByProject s pid = (getTodoList s pid).filterMap
      (fun todoId => (kvGet s (Key.todo todoId)).map Value.asTodo) := by
  refine ⟨?_, ?_, getTodosByProject_eq s pid⟩
  · intro hp
    simp [list_todos, hp]
  · intro v hp
    refine ⟨_, by simp [list_todos, hp], rfl, ?_⟩
    cases status with
    | none => exact List.Sublist.refl _
    | some st => exact List.filter_sublist _

/-- C10: the four read handlers leave the store exactly as it was and
their KV traces contain no put and no delete, on every input,
including ids that fail with NotFound. -/
theorem c10_reads_pure (s : Store) (pid tid : String) (status : Option Status) :
    ((list_projects s).store = s ∧
      (list_projects s).events.all (fun e => !e.isWrite) = true) ∧
    ((get_project s pid).store = s ∧
      (get_project s pid).events.all (fun e => !e.isWrite) = true) ∧
    ((get_todo s tid).store = s ∧
      (get_todo s tid).events.all (fun e => !e.isWrite) = true) ∧
    ((list_todos s pid status).store = s ∧
      (list_todos s pid status).events.all (fun e => !e.isWrite) = true) := by
  refine ⟨⟨list_projects_store s, ?_⟩, ⟨get_project_store s pid, ?_⟩,
    ⟨get_todo_store s tid, ?_⟩, ⟨list_todos_store s pid status, ?_⟩⟩
  · rw [list_projects_events]
    simp [List.all_eq_true, KVEvent.isWrite, List.mem_map]
  · unfold get_project
    cases kvGet s (Key.project pid) <;>
      simp [getTodosByProjectEvents, List.all_eq_true, KVEvent.isWrite,
        List.mem_map]
  · rw [get_todo_events]
    simp [KVEvent.isWrite]
  · unfold list_todos
    cases kvGet s (Key.project pid) <;>
      simp [getTodosByProjectEvents, List.all_eq_true, KVEvent.isWrite,
        List.mem_map]

theorem c8_witness :
    (kvGet demoStore2 (Key.project "p1") = none →
      (list_todos demoStore2 "p1" (some Status.pending)).result =
        Except.error "Project with ID p1 does not exist.") ∧
    (∀ v, kvGet demoStore2 (Key.project "p1") = some v →
      ∃ l : List Todo,
        (list_todos demoStore2 "p1" (some Status.pending)).result =
          Except.ok l ∧
        l = (getTodosByProject demoStore2 "p1").filter
          (fun todo => todo.status == Status.pending) ∧
        l.Sublist (getTodosByProject demoStore2 "p1")) ∧
    getTodosByProject demoStore2 "p1" = (getTodoList demoStore2 "p1").filterMap
      (fun todoId => (kvGet demoStore2 (Key.todo todoId)).map Value.asTodo) :=
  c8_list_todos demoStore2 "p1" (some Status.pending)

theorem c10_witness :
    ((list_projects demoStore2).store = demoStore2 ∧
      (list_projects demoStore2).events.all (fun e => !e.isWrite) = true) ∧
    ((get_project demoStore2 "p1").store = demoStore2 ∧
      (get_project demoStore2 "p1").events.all (fun e => !e.isWrite) = true) ∧
    ((get_todo demoStore2 "t1").store = demoStore2 ∧
      (get_todo demoStore2 "t1").events.all (fun e => !e.isWrite) = true) ∧
    ((list_todos demoStore2 "p1" none).store = demoStore2 ∧
      (list_todos demoStore2 "p1" none).events.all
        (fun e => !e.isWrite) = true) :=
  c10_reads_pure demoStore2 "p1" "t1" none

end ProjectPlanner
